import Mathlib

set_option maxHeartbeats 1000000

/-!
Shallow embedding of `src/src/chessGame_backend/src/lib.rs`, the single
source file of the `chopstick-icp` canister: the data model (`Player`,
`GameState`, `Turn`, `Game`, `ChopsticksGameService`), the game state
machine (`Game::new`, `Game::join`, `Game::make_move`) and the exposed
endpoints (`init`, `start_game`, `join_game`, `make_move`,
`get_game_state`) acting on the stable store.

Modelling conventions:
- `Principal` is an opaque equality-comparable identity, embedded as `Nat`.
- `u8` fields are `Nat`s; the one arithmetic operation the code performs on
  them (`*opponent_hand += active_hand`, a release-mode wrapping add) is
  embedded as addition followed by `% 256`.
- `HashMap<String, Game>` and `StableBTreeMap<String, ChopsticksGameService>`
  are association lists with `mapGet` / `mapInsert` (insert replaces an
  existing binding, as the Rust maps do).
- `StableBTreeMap::get` returns an owned, deserialized copy of the stored
  value; mutating that copy does not touch the stable map.  The endpoints
  are embedded as state-passing functions returning the (possibly updated)
  stable map together with the Rust `Result`, embedded as `Except`.
- The sources of nondeterminism in `Game::new` (the UUID session id, the
  caller principal, the random initial turn) are parameters.
-/

/-- Rust `Principal`: an opaque, equality-comparable caller identity. -/
abbrev Principal := Nat

/-- Rust struct `Player` (lib.rs lines 11-17). -/
structure Player where
  id : Principal
  game : Option String
  left_hand : Nat
  right_hand : Nat
deriving DecidableEq

/-- Rust enum `GameState` (lib.rs lines 19-24). -/
inductive GameState where
  | WaitingForPlayer
  | InProgress
  | Finished (winner : Principal)
deriving DecidableEq

/-- Rust enum `Turn` (lib.rs lines 26-30). -/
inductive Turn where
  | Player1
  | Player2
deriving DecidableEq

/-- Rust struct `Game` (lib.rs lines 32-40). -/
structure Game where
  session_id : String
  player1 : Player
  player2 : Option Player
  state : GameState
  current_turn : Turn
deriving DecidableEq

/-- Rust struct `ChopsticksGameService` (lib.rs lines 42-46): the
`HashMap<String, Game>` is an association list with unique keys. -/
structure ChopsticksGameService where
  games : List (String × Game)
deriving DecidableEq

/-- `HashMap::get` / `StableBTreeMap::get`: the binding for the key, if any
(an owned copy of the value). -/
def mapGet {α : Type} : List (String × α) → String → Option α
  | [], _ => none
  | (k, v) :: rest, key => if k = key then some v else mapGet rest key

/-- `HashMap::insert` / `StableBTreeMap::insert`: replace the binding for
the key if present, otherwise add it. -/
def mapInsert {α : Type} : List (String × α) → String → α → List (String × α)
  | [], key, v => [(key, v)]
  | (k, w) :: rest, key, v =>
      if k = key then (key, v) :: rest else (k, w) :: mapInsert rest key v

/-- The `GAME_SERVICE` thread-local `StableBTreeMap<String,
ChopsticksGameService, _>` (lib.rs lines 77-81). -/
abbrev StableMap := List (String × ChopsticksGameService)

/-- The single key every endpoint uses in the stable map. -/
def serviceKey : String := "chopsticks_game_service"

/-- Rust `Game::new` (lib.rs lines 94-104).  The freshly generated UUID
`sid`, the caller `cid` and the randomly drawn initial turn `t` are
parameters of the embedding. -/
def Game.new (sid : String) (cid : Principal) (t : Turn) : Game :=
  { session_id := sid
    player1 := { id := cid, game := none, left_hand := 1, right_hand := 1 }
    player2 := none
    state := GameState.WaitingForPlayer
    current_turn := t }

/-- Rust `Game::join` (lib.rs lines 106-111): when the guard fails the
method silently leaves the game unchanged (it returns `()`). -/
def Game.join (g : Game) (player : Player) : Game :=
  if g.state = GameState.WaitingForPlayer ∧ g.player2 = none then
    { g with player2 := some player, state := GameState.InProgress }
  else
    g

/-- The in-place update of the opponent's targeted hand inside
`Game::make_move` (lib.rs lines 130-132): a wrapping `u8` add of the
active hand, then reset to 0 when the result reaches the threshold 5. -/
def Player.hit (p : Player) (target_hand : Nat) (active_hand : Nat) : Player :=
  if target_hand = 0 then
    let v := (p.left_hand + active_hand) % 256
    { p with left_hand := if 5 ≤ v then 0 else v }
  else
    let v := (p.right_hand + active_hand) % 256
    { p with right_hand := if 5 ≤ v then 0 else v }

/-- Rust `Game::make_move` (lib.rs lines 113-145).  Every early `return`
of the Rust method leaves `self` untouched, so those paths yield `g`.  In
the `Turn::Player2` arm the guard `self.player2.as_ref().map_or(false,
|p| p.id == player_id)` is embedded as the match on `g.player2` with the
`none` case falling through to the `_ => return` arm; the subsequent
`unwrap` is thereby the matched payload.  In the `Turn::Player1` arm the
turn-switch match yields `Turn.Player2`, and symmetrically. -/
def Game.make_move (g : Game) (player_id : Principal) (hand target_hand : Nat) : Game :=
  if g.state ≠ GameState.InProgress then g
  else
    match g.current_turn with
    | Turn.Player1 =>
        if g.player1.id = player_id then
          let active_hand := if hand = 0 then g.player1.left_hand else g.player1.right_hand
          if active_hand = 0 then g
          else
            match g.player2 with
            | some opponent =>
                let opponent := opponent.hit target_hand active_hand
                if opponent.left_hand = 0 ∧ opponent.right_hand = 0 then
                  { g with player2 := some opponent
                           state := GameState.Finished player_id }
                else
                  { g with player2 := some opponent
                           current_turn := Turn.Player2 }
            | none => g
        else g
    | Turn.Player2 =>
        match g.player2 with
        | some p2 =>
            if p2.id = player_id then
              let active_hand := if hand = 0 then p2.left_hand else p2.right_hand
              if active_hand = 0 then g
              else
                let opponent := g.player1.hit target_hand active_hand
                if opponent.left_hand = 0 ∧ opponent.right_hand = 0 then
                  { g with player1 := opponent
                           state := GameState.Finished player_id }
                else
                  { g with player1 := opponent
                           current_turn := Turn.Player1 }
            else g
        | none => g

/-- Rust `#[init] fn init` (lib.rs lines 84-92): store an empty service
record under `serviceKey`. -/
def init (st : StableMap) : StableMap :=
  mapInsert st serviceKey { games := [] }

/-- Rust `#[update] fn start_game` (lib.rs lines 148-163).  The endpoint
inserts the new game only into the owned copy `_updated` of the service
record obtained from `get`; the copy is never written back to the stable
map, so the returned map is the input map. -/
def start_game (st : StableMap) (sid : String) (cid : Principal) (t : Turn) :
    StableMap × Except String String :=
  let game := Game.new sid cid t
  let session_id := game.session_id
  match mapGet st serviceKey with
  | some game_service =>
      let _updated : ChopsticksGameService :=
        { game_service with games := mapInsert game_service.games session_id game }
      (st, Except.ok session_id)
  | none => (st, Except.ok session_id)

/-- Rust `#[update] fn join_game` (lib.rs lines 165-182).  Like
`start_game`, the join is applied only to the owned copy of the service
record; when the top-level record is absent the endpoint returns `Ok(())`. -/
def join_game (st : StableMap) (cid : Principal) (session_id : String) :
    StableMap × Except String Unit :=
  let player : Player :=
    { id := cid, game := some session_id, left_hand := 1, right_hand := 1 }
  match mapGet st serviceKey with
  | some game_service =>
      match mapGet game_service.games session_id with
      | some game =>
          let _updated : ChopsticksGameService :=
            { game_service with
                games := mapInsert game_service.games session_id (game.join player) }
          (st, Except.ok ())
      | none => (st, Except.error "Game not found")
  | none => (st, Except.ok ())

/-- Rust `#[update] fn make_move` (lib.rs lines 184-202).  Same shape as
`join_game`: the move is applied to the owned copy only, and an absent
top-level record yields `Ok(())`. -/
def make_move (st : StableMap) (cid : Principal) (session_id : String)
    (hand target_hand : Nat) : StableMap × Except String Unit :=
  match mapGet st serviceKey with
  | some game_service =>
      match mapGet game_service.games session_id with
      | some game =>
          let _updated : ChopsticksGameService :=
            { game_service with
                games := mapInsert game_service.games session_id
                  (game.make_move cid hand target_hand) }
          (st, Except.ok ())
      | none => (st, Except.error "Game not found")
  | none => (st, Except.ok ())

/-- Rust `#[query] fn get_game_state` (lib.rs lines 204-219). -/
def get_game_state (st : StableMap) (session_id : String) : Except String Game :=
  match mapGet st serviceKey with
  | some game_service =>
      match mapGet game_service.games session_id with
      | some game => Except.ok game
      | none => Except.error "Game not found"
  | none => Except.error "Game not found"

/-- One externally triggered mutating call, with its nondeterministic
inputs (caller, UUID, random turn) as payload. -/
inductive Op where
  | start (sid : String) (cid : Principal) (t : Turn)
  | join (cid : Principal) (sid : String)
  | move (cid : Principal) (sid : String) (hand target_hand : Nat)

/-- The stable map after one mutating endpoint call. -/
def applyOp (st : StableMap) : Op → StableMap
  | Op.start sid cid t => (start_game st sid cid t).1
  | Op.join cid sid => (join_game st cid sid).1
  | Op.move cid sid hand target_hand => (make_move st cid sid hand target_hand).1

/-- The stable map after a sequence of mutating endpoint calls. -/
def runOps (st : StableMap) (ops : List Op) : StableMap :=
  ops.foldl applyOp st

/-- Games reachable from `Game::new` by `join` and `make_move` calls. -/
inductive Reachable : Game → Prop where
  | new (sid : String) (cid : Principal) (t : Turn) : Reachable (Game.new sid cid t)
  | join (g : Game) (p : Player) : Reachable g → Reachable (g.join p)
  | move (g : Game) (pid : Principal) (hand target_hand : Nat) :
      Reachable g → Reachable (g.make_move pid hand target_hand)

/-- The seat opposite a given seat (the turn-switch match of lib.rs
lines 139-142). -/
def Turn.other : Turn → Turn
  | Turn.Player1 => Turn.Player2
  | Turn.Player2 => Turn.Player1

/-- Whether `pid` occupies the seat whose turn it is: the guards of the
match in `Game::make_move` (lib.rs lines 119-123). -/
def Game.turnValid (g : Game) (pid : Principal) : Bool :=
  match g.current_turn with
  | Turn.Player1 => g.player1.id == pid
  | Turn.Player2 =>
      match g.player2 with
      | some p => p.id == pid
      | none => false

/-- The player occupying the seat whose turn it is. -/
def Game.activePlayer (g : Game) : Option Player :=
  match g.current_turn with
  | Turn.Player1 => some g.player1
  | Turn.Player2 => g.player2

/-- The `opponent` option built by the match in `Game::make_move`:
`self.player2.as_mut()` on Player1's turn, `Some(&mut self.player1)` on
Player2's turn. -/
def Game.moveOpponent (g : Game) : Option Player :=
  match g.current_turn with
  | Turn.Player1 => g.player2
  | Turn.Player2 => some g.player1

/-- The value of the slot `slot` of a player (0 = left, else right). -/
def Player.handValue (p : Player) (slot : Nat) : Nat :=
  if slot = 0 then p.left_hand else p.right_hand

/-- The opponent of the pre-call active seat, as stored after the call. -/
def Game.oppAfter (g : Game) (pid : Principal) (hand target_hand : Nat) : Option Player :=
  match g.current_turn with
  | Turn.Player1 => (g.make_move pid hand target_hand).player2
  | Turn.Player2 => some (g.make_move pid hand target_hand).player1

/-- Position of a phase along `WaitingForPlayer → InProgress → Finished`. -/
def phaseRank : GameState → Nat
  | GameState.WaitingForPlayer => 0
  | GameState.InProgress => 1
  | GameState.Finished _ => 2

/-- The precondition of `Game::join` fails (the `NotJoinable` situation). -/
def Game.joinRejected (g : Game) : Prop :=
  ¬ (g.state = GameState.WaitingForPlayer ∧ g.player2 = none)

/-- Some precondition of `Game::make_move` fails: not in progress
(`NotInProgress`), wrong or unknown identity (`NotYourTurn`), or the
acting player's source slot holds 0 (`EmptySourceSlot`). -/
def Game.moveRejected (g : Game) (pid : Principal) (hand : Nat) : Prop :=
  g.state ≠ GameState.InProgress ∨ g.turnValid pid = false ∨
    (∃ act, g.activePlayer = some act ∧ act.handValue hand = 0)

/-- Concrete joiner used in concrete instances below. -/
def pJoiner : Player := { id := 2, game := some "s", left_hand := 1, right_hand := 1 }

/-- A concrete in-progress game: both seats occupied, Player1 to act. -/
def gInProg : Game :=
  { session_id := "sp"
    player1 := { id := 1, game := none, left_hand := 1, right_hand := 1 }
    player2 := some { id := 2, game := some "sp", left_hand := 1, right_hand := 1 }
    state := GameState.InProgress
    current_turn := Turn.Player1 }

/-- A concrete in-progress game whose acting player's left slot holds 0. -/
def gEmptySlot : Game :=
  { session_id := "se"
    player1 := { id := 1, game := none, left_hand := 0, right_hand := 1 }
    player2 := some { id := 2, game := some "se", left_hand := 1, right_hand := 1 }
    state := GameState.InProgress
    current_turn := Turn.Player1 }

/-- A concrete in-progress game whose target slot holds 255, so the `u8`
add of the acting value 2 wraps modulo 256. -/
def gWrap : Game :=
  { session_id := "sw"
    player1 := { id := 1, game := none, left_hand := 2, right_hand := 1 }
    player2 := some { id := 2, game := some "sw", left_hand := 255, right_hand := 1 }
    state := GameState.InProgress
    current_turn := Turn.Player1 }

/-- A concrete finished game. -/
def gFin : Game :=
  { session_id := "sf"
    player1 := { id := 1, game := none, left_hand := 1, right_hand := 1 }
    player2 := some { id := 2, game := some "sf", left_hand := 0, right_hand := 0 }
    state := GameState.Finished 1
    current_turn := Turn.Player1 }

/-- A concrete in-progress game one move away from a win: the acting
player's left slot holds 3, the opponent's slots hold 2 and 0. -/
def gNearWin : Game :=
  { session_id := "sn"
    player1 := { id := 1, game := none, left_hand := 3, right_hand := 1 }
    player2 := some { id := 2, game := some "sn", left_hand := 2, right_hand := 0 }
    state := GameState.InProgress
    current_turn := Turn.Player1 }

/-- A concrete store holding a waiting game, an in-progress game and an
in-progress game with an empty acting slot. -/
def stDemo : StableMap :=
  [(serviceKey,
    { games := [("s0", Game.new "s0" 1 Turn.Player1), ("sp", gInProg),
                ("se", gEmptySlot)] })]

theorem mapGet_mapInsert_self {α : Type} (m : List (String × α)) (k : String) (v : α) :
    mapGet (mapInsert m k v) k = some v := by
  induction m with
  | nil => simp [mapGet, mapInsert]
  | cons hd tl ih =>
      obtain ⟨k0, v0⟩ := hd
      by_cases h : k0 = k
      · simp [mapGet, mapInsert, h]
      · simp [mapGet, mapInsert, h, ih]

theorem start_game_store_unchanged (st : StableMap) (sid : String) (cid : Principal)
    (t : Turn) : (start_game st sid cid t).1 = st := by
  unfold start_game
  cases mapGet st serviceKey <;> rfl

theorem join_game_store_unchanged (st : StableMap) (cid : Principal) (sid : String) :
    (join_game st cid sid).1 = st := by
  unfold join_game
  rcases h : mapGet st serviceKey with _ | gs
  · simp [h]
  · rcases h2 : mapGet gs.games sid with _ | g <;> simp [h, h2]

theorem make_move_store_unchanged (st : StableMap) (cid : Principal) (sid : String)
    (hand target_hand : Nat) : (make_move st cid sid hand target_hand).1 = st := by
  unfold make_move
  rcases h : mapGet st serviceKey with _ | gs
  · simp [h]
  · rcases h2 : mapGet gs.games sid with _ | g <;> simp [h, h2]

theorem applyOp_store_unchanged (st : StableMap) (op : Op) : applyOp st op = st := by
  cases op with
  | start sid cid t => exact start_game_store_unchanged st sid cid t
  | join cid sid => exact join_game_store_unchanged st cid sid
  | move cid sid hand target_hand => exact make_move_store_unchanged st cid sid hand target_hand

theorem runOps_store_unchanged (st : StableMap) (ops : List Op) : runOps st ops = st := by
  induction ops generalizing st with
  | nil => rfl
  | cons op rest ih =>
      show runOps (applyOp st op) rest = st
      rw [applyOp_store_unchanged, ih]

/-- C2: after `init`, any sequence of `start_game` / `join_game` /
`make_move` calls leaves the record stored under
`"chopsticks_game_service"` with an empty games map (the endpoints mutate
only the local copy obtained from `get` and never write it back), and
`get_game_state` consequently answers `Err "Game not found"` for every
session id. -/
theorem C2_store_never_grows (st : StableMap) (ops : List Op) (sid : String) :
    mapGet (runOps (init st) ops) serviceKey = some { games := [] } ∧
    get_game_state (runOps (init st) ops) sid = Except.error "Game not found" := by
  rw [runOps_store_unchanged]
  have hg : mapGet (init st) serviceKey = some { games := [] } :=
    mapGet_mapInsert_self st serviceKey { games := [] }
  refine ⟨hg, ?_⟩
  unfold get_game_state
  rw [hg]
  rfl

/-- C1: `start_game` on the freshly initialized store returns
`Ok "s1"`, yet the stored service record still has an empty games map and
`get_game_state "s1"` fails: the successful return is not backed by any
persisted mutation, because the endpoint never writes the updated copy
back to the stable map. -/
theorem C1_success_without_persisted_mutation :
    (start_game (init []) "s1" 1 Turn.Player1).2 = Except.ok "s1" ∧
    mapGet (start_game (init []) "s1" 1 Turn.Player1).1 serviceKey =
      some { games := [] } ∧
    get_game_state (start_game (init []) "s1" 1 Turn.Player1).1 "s1" =
      Except.error "Game not found" :=
  ⟨rfl, rfl, rfl⟩

/-- C8: when the service record exists but the session id is absent, the
three endpoints do answer `Err "Game not found"`; but when the top-level
`"chopsticks_game_service"` record itself is absent, `join_game` and
`make_move` return `Ok(())` (silent success) instead of a not-found
error, while only `get_game_state` reports the error. -/
theorem C8_absent_record_silent_success :
    (join_game (init []) 1 "s").2 = Except.error "Game not found" ∧
    (make_move (init []) 1 "s" 0 0).2 = Except.error "Game not found" ∧
    get_game_state (init []) "s" = Except.error "Game not found" ∧
    (join_game [] 1 "s").2 = Except.ok () ∧
    (make_move [] 1 "s" 0 0).2 = Except.ok () ∧
    get_game_state [] "s" = Except.error "Game not found" :=
  ⟨rfl, rfl, rfl, rfl, rfl, rfl⟩

theorem join_not_waiting (g : Game) (p : Player)
    (h : ¬ (g.state = GameState.WaitingForPlayer ∧ g.player2 = none)) :
    g.join p = g := by
  unfold Game.join
  rw [if_neg h]

theorem join_cases (g : Game) (p : Player) :
    g.join p = g ∨
    (g.state = GameState.WaitingForPlayer ∧
      (g.join p).state = GameState.InProgress ∧ (g.join p).player2 = some p) := by
  unfold Game.join
  by_cases h : g.state = GameState.WaitingForPlayer ∧ g.player2 = none
  · right
    rw [if_pos h]
    exact ⟨h.1, rfl, rfl⟩
  · left
    rw [if_neg h]

theorem make_move_not_inprogress (g : Game) (pid : Principal) (hand target_hand : Nat)
    (h : g.state ≠ GameState.InProgress) :
    g.make_move pid hand target_hand = g := by
  unfold Game.make_move
  rw [if_pos h]

theorem Player.hit_handValue (p : Player) (target_hand a : Nat) :
    (p.hit target_hand a).handValue target_hand =
      if 5 ≤ (p.handValue target_hand + a) % 256 then 0
      else (p.handValue target_hand + a) % 256 := by
  unfold Player.hit Player.handValue
  by_cases h : target_hand = 0 <;> simp [h]

theorem make_move_applies (g : Game) (pid : Principal) (hand target_hand : Nat)
    (act opp : Player)
    (hs : g.state = GameState.InProgress)
    (ht : g.turnValid pid = true)
    (hact : g.activePlayer = some act)
    (hopp : g.moveOpponent = some opp)
    (hhand : act.handValue hand ≠ 0) :
    g.make_move pid hand target_hand =
      if (opp.hit target_hand (act.handValue hand)).left_hand = 0 ∧
         (opp.hit target_hand (act.handValue hand)).right_hand = 0 then
        (match g.current_turn with
         | Turn.Player1 =>
             { g with player2 := some (opp.hit target_hand (act.handValue hand))
                      state := GameState.Finished pid }
         | Turn.Player2 =>
             { g with player1 := opp.hit target_hand (act.handValue hand)
                      state := GameState.Finished pid })
      else
        (match g.current_turn with
         | Turn.Player1 =>
             { g with player2 := some (opp.hit target_hand (act.handValue hand))
                      current_turn := Turn.Player2 }
         | Turn.Player2 =>
             { g with player1 := opp.hit target_hand (act.handValue hand)
                      current_turn := Turn.Player1 }) := by
  obtain ⟨gsid, p1, p2, stt, ct⟩ := g
  simp only at hs
  subst hs
  cases ct with
  | Player1 =>
      simp only [Game.turnValid, beq_iff_eq] at ht
      simp only [Game.activePlayer, Option.some.injEq] at hact
      subst hact
      simp only [Game.moveOpponent] at hopp
      subst hopp
      simp [Game.make_move, ht, Player.handValue, hhand]
      intro h
      exact absurd (by simpa [Player.handValue] using h) hhand
  | Player2 =>
      simp only [Game.moveOpponent, Option.some.injEq] at hopp
      subst hopp
      simp only [Game.turnValid] at ht
      simp only [Game.activePlayer] at hact
      subst hact
      simp only [beq_iff_eq] at ht
      simp [Game.make_move, ht, Player.handValue, hhand]
      intro h
      exact absurd (by simpa [Player.handValue] using h) hhand

theorem make_move_cases (g : Game) (pid : Principal) (hand target_hand : Nat) :
    g.make_move pid hand target_hand = g ∨
    (g.state = GameState.InProgress ∧
      ((g.make_move pid hand target_hand).state = GameState.InProgress ∨
        (g.make_move pid hand target_hand).state = GameState.Finished pid) ∧
      (g.make_move pid hand target_hand).player2.isSome = true) := by
  by_cases hs : g.state = GameState.InProgress
  · obtain ⟨gsid, p1, p2, stt, ct⟩ := g
    simp only at hs
    subst hs
    cases ct with
    | Player1 =>
        by_cases hid : p1.id = pid
        · by_cases hah : (if hand = 0 then p1.left_hand else p1.right_hand) = 0
          · left; simp [Game.make_move, hid, hah]
          · cases p2 with
            | none => left; simp [Game.make_move, hid, hah]
            | some q =>
                by_cases hw :
                    (q.hit target_hand (if hand = 0 then p1.left_hand else p1.right_hand)).left_hand = 0 ∧
                    (q.hit target_hand (if hand = 0 then p1.left_hand else p1.right_hand)).right_hand = 0
                · right
                  refine ⟨rfl, Or.inr ?_, ?_⟩ <;> simp [Game.make_move, hid, hah, hw]
                · right
                  refine ⟨rfl, Or.inl ?_, ?_⟩ <;> simp [Game.make_move, hid, hah, hw]
        · left; simp [Game.make_move, hid]
    | Player2 =>
        cases p2 with
        | none => left; simp [Game.make_move]
        | some q =>
            by_cases hid : q.id = pid
            · by_cases hah : (if hand = 0 then q.left_hand else q.right_hand) = 0
              · left; simp [Game.make_move, hid, hah]
              · by_cases hw :
                    (p1.hit target_hand (if hand = 0 then q.left_hand else q.right_hand)).left_hand = 0 ∧
                    (p1.hit target_hand (if hand = 0 then q.left_hand else q.right_hand)).right_hand = 0
                · right
                  refine ⟨rfl, Or.inr ?_, ?_⟩ <;> simp [Game.make_move, hid, hah, hw]
                · right
                  refine ⟨rfl, Or.inl ?_, ?_⟩ <;> simp [Game.make_move, hid, hah, hw]
            · left; simp [Game.make_move, hid]
  · left
    exact make_move_not_inprogress g pid hand target_hand hs

/-- C9: the phase never moves backward under `join` or `make_move`, each
transition is along `WaitingForPlayer → InProgress → Finished`, and a
`Finished` game is left entirely unchanged by both operations. -/
theorem C9_phase_forward (g : Game) (p : Player) (pid : Principal)
    (hand target_hand : Nat) :
    phaseRank g.state ≤ phaseRank (g.join p).state ∧
    phaseRank g.state ≤ phaseRank (g.make_move pid hand target_hand).state ∧
    ((g.join p).state = g.state ∨
      (g.state = GameState.WaitingForPlayer ∧
        (g.join p).state = GameState.InProgress)) ∧
    ((g.make_move pid hand target_hand).state = g.state ∨
      (g.state = GameState.InProgress ∧
        (g.make_move pid hand target_hand).state = GameState.Finished pid)) ∧
    (∀ w, g.state = GameState.Finished w →
      g.join p = g ∧ g.make_move pid hand target_hand = g) := by
  have hj := join_cases g p
  have hm := make_move_cases g pid hand target_hand
  refine ⟨?_, ?_, ?_, ?_, ?_⟩
  · rcases hj with h | ⟨h1, h2, _⟩
    · rw [h]
    · rw [h1, h2]; simp [phaseRank]
  · rcases hm with h | ⟨h1, h2 | h2, _⟩
    · rw [h]
    · rw [h1, h2]
    · rw [h1, h2]; simp [phaseRank]
  · rcases hj with h | ⟨h1, h2, _⟩
    · left; rw [h]
    · right; exact ⟨h1, h2⟩
  · rcases hm with h | ⟨h1, h2 | h2, _⟩
    · left; rw [h]
    · left; rw [h1, h2]
    · right; exact ⟨h1, h2⟩
  · intro w hw
    constructor
    · refine join_not_waiting g p ?_
      rw [hw]
      rintro ⟨h1, -⟩
      exact GameState.noConfusion h1
    · refine make_move_not_inprogress g pid hand target_hand ?_
      rw [hw]
      intro h1
      exact GameState.noConfusion h1

theorem reachable_inprogress_player2 (g : Game) (hg : Reachable g) :
    g.state = GameState.InProgress → g.player2.isSome = true := by
  induction hg with
  | new sid cid t =>
      intro h
      exact absurd h (by simp [Game.new])
  | join g0 p _ ih =>
      rcases join_cases g0 p with h | ⟨-, -, h3⟩
      · rw [h]; exact ih
      · intro _
        rw [h3]
        rfl
  | move g0 pid hand target_hand _ ih =>
      rcases make_move_cases g0 pid hand target_hand with h | ⟨-, -, h3⟩
      · rw [h]; exact ih
      · intro _
        exact h3

/-- C10: in every game reachable from `Game::new` by `join` and
`make_move`, `state = InProgress` implies `player2` is present; hence the
`player2` option unwrapped in the `Turn::Player2` arm of `make_move` is
`Some`, and for any turn-valid caller the `opponent` option built by the
match is `Some`, so the slot-update branch is taken. -/
theorem C10_inprogress_has_player2 (g : Game) (hg : Reachable g)
    (hs : g.state = GameState.InProgress) :
    g.player2.isSome = true ∧
    ∀ pid : Principal, g.turnValid pid = true → g.moveOpponent.isSome = true := by
  have h2 := reachable_inprogress_player2 g hg hs
  refine ⟨h2, fun pid _ => ?_⟩
  unfold Game.moveOpponent
  rcases h : g.current_turn with _ | _
  · exact h2
  · rfl

/-- Witness for C10 at the concrete reachable game obtained by joining a
fresh game. -/
theorem C10_witness :
    ((Game.new "s" 1 Turn.Player1).join pJoiner).player2.isSome = true ∧
    ∀ pid : Principal,
      ((Game.new "s" 1 Turn.Player1).join pJoiner).turnValid pid = true →
      ((Game.new "s" 1 Turn.Player1).join pJoiner).moveOpponent.isSome = true :=
  C10_inprogress_has_player2 ((Game.new "s" 1 Turn.Player1).join pJoiner)
    (Reachable.join (Game.new "s" 1 Turn.Player1) pJoiner
      (Reachable.new "s" 1 Turn.Player1))
    (by rfl)

/-- C4: when a precondition fails (`NotJoinable` for `join`,
`NotInProgress` / `NotYourTurn` / `EmptySourceSlot` for `make_move`,
`SessionNotFound` at the endpoints), the stored `Game` is left identical
to its pre-call value: each failing precondition independently makes the
rejected `join` or `make_move` return the game unchanged, and the
endpoints always leave the stable store unchanged, in particular when
the session id is absent. -/
theorem C4_rejected_noop (g : Game) (p : Player) (pid : Principal)
    (hand target_hand : Nat) (st : StableMap) (cid : Principal) (sid : String) :
    (g.joinRejected → g.join p = g) ∧
    (g.moveRejected pid hand → g.make_move pid hand target_hand = g) ∧
    (join_game st cid sid).1 = st ∧ (make_move st cid sid hand target_hand).1 = st := by
  refine ⟨fun hj => join_not_waiting g p hj, fun hm => ?_,
    join_game_store_unchanged st cid sid,
    make_move_store_unchanged st cid sid hand target_hand⟩
  rcases hm with hm | hm | hm
  · exact make_move_not_inprogress g pid hand target_hand hm
  · obtain ⟨gsid, p1, p2, stt, ct⟩ := g
    cases ct with
    | Player1 =>
        simp only [Game.turnValid, beq_eq_false_iff_ne, ne_eq] at hm
        simp [Game.make_move, hm]
    | Player2 =>
        cases p2 with
        | none => simp [Game.make_move]
        | some q =>
            simp only [Game.turnValid, beq_eq_false_iff_ne, ne_eq] at hm
            simp [Game.make_move, hm]
  · obtain ⟨act, hact, hzero⟩ := hm
    obtain ⟨gsid, p1, p2, stt, ct⟩ := g
    cases ct with
    | Player1 =>
        simp only [Game.activePlayer, Option.some.injEq] at hact
        subst hact
        simp only [Player.handValue] at hzero
        by_cases hid : p1.id = pid
        · simp [Game.make_move, hid, hzero]
        · simp [Game.make_move, hid]
    | Player2 =>
        cases p2 with
        | none => simp [Game.make_move]
        | some q =>
            simp only [Game.activePlayer, Option.some.injEq] at hact
            subst hact
            simp only [Player.handValue] at hzero
            by_cases hid : q.id = pid
            · simp [Game.make_move, hid, hzero]
            · simp [Game.make_move, hid]

/-- Witness for C4: a finished game rejects a join and a move unchanged,
a move on a freshly created awaiting-opponent game (not in progress) is
rejected unchanged, and the endpoints on an id absent from the freshly
initialized store leave the store unchanged. -/
theorem C4_witness :
    gFin.join pJoiner = gFin ∧
    gFin.make_move 3 0 0 = gFin ∧
    (Game.new "s0" 1 Turn.Player1).make_move 1 0 0 = Game.new "s0" 1 Turn.Player1 ∧
    (join_game (init []) 1 "zz").1 = init [] ∧
    (make_move (init []) 1 "zz" 0 0).1 = init [] :=
  ⟨(C4_rejected_noop gFin pJoiner 3 0 0 (init []) 1 "zz").1
      (by simp [gFin, Game.joinRejected]),
   (C4_rejected_noop gFin pJoiner 3 0 0 (init []) 1 "zz").2.1
      (Or.inl (by simp [gFin])),
   (C4_rejected_noop (Game.new "s0" 1 Turn.Player1) pJoiner 1 0 0 (init []) 1 "zz").2.1
      (Or.inl (by simp [Game.new])),
   (C4_rejected_noop gFin pJoiner 3 0 0 (init []) 1 "zz").2.2.1,
   (C4_rejected_noop gFin pJoiner 3 0 0 (init []) 1 "zz").2.2.2⟩

/-- C3: failing preconditions are silently swallowed, not surfaced as
typed failures.  A join on an in-progress game, a move by an identity
matching neither seat, a move on a game not in progress, and a move from
a slot holding 0 all leave the game unchanged while the endpoint reports
plain success, because `Game::join` and `Game::make_move` return `()` and
the endpoints answer `Ok` whenever the session id is found. -/
theorem C3_failures_silently_swallowed :
    (gInProg.state = GameState.InProgress ∧ gInProg.join pJoiner = gInProg ∧
      (join_game stDemo 9 "sp").2 = Except.ok ()) ∧
    (gInProg.turnValid 9 = false ∧ gInProg.make_move 9 0 0 = gInProg ∧
      (make_move stDemo 9 "sp" 0 0).2 = Except.ok ()) ∧
    ((Game.new "s0" 1 Turn.Player1).state ≠ GameState.InProgress ∧
      (Game.new "s0" 1 Turn.Player1).make_move 1 0 0 = Game.new "s0" 1 Turn.Player1 ∧
      (make_move stDemo 1 "s0" 0 0).2 = Except.ok ()) ∧
    (gEmptySlot.activePlayer =
        some { id := 1, game := none, left_hand := 0, right_hand := 1 } ∧
      gEmptySlot.make_move 1 0 0 = gEmptySlot ∧
      (make_move stDemo 1 "se" 0 0).2 = Except.ok ()) :=
  ⟨⟨rfl, rfl, rfl⟩, ⟨rfl, rfl, rfl⟩, ⟨by decide, rfl, rfl⟩, ⟨rfl, rfl, rfl⟩⟩

/-- C5 counterexample: in the in-progress game `gWrap` the target slot
holds 255 and the acting source slot holds 2, so `v + a = 257 ≥ 5`; the
claim predicts a resulting slot of exactly 0, but the `u8` addition wraps
to 1 and the threshold check does not fire: the resulting slot is 1. -/
theorem C5_wrap_counterexample :
    gWrap.state = GameState.InProgress ∧
    gWrap.turnValid 1 = true ∧
    gWrap.moveOpponent =
      some { id := 2, game := some "sw", left_hand := 255, right_hand := 1 } ∧
    gWrap.activePlayer =
      some { id := 1, game := none, left_hand := 2, right_hand := 1 } ∧
    5 ≤ 255 + 2 ∧
    ((gWrap.make_move 1 0 0).player2.map (fun q => q.left_hand)) = some 1 ∧
    ((gWrap.make_move 1 0 0).player2.map (fun q => q.left_hand)) ≠ some 0 :=
  ⟨rfl, rfl, rfl, rfl, by decide, rfl, by decide⟩

/-- C5 (amended): in a move applied to an in-progress game with target
slot value `v` and acting source slot value `a`, provided the `u8`
addition does not overflow (`v + a ≤ 255`), the resulting target slot is
exactly 0 when `v + a ≥ 5` and exactly `v + a` otherwise; when
`v + a > 255` the addition wraps modulo 256 before the threshold check. -/
theorem C5_threshold_wrap (g : Game) (pid : Principal) (hand target_hand : Nat)
    (act opp : Player)
    (hs : g.state = GameState.InProgress)
    (ht : g.turnValid pid = true)
    (hact : g.activePlayer = some act)
    (hopp : g.moveOpponent = some opp)
    (hhand : act.handValue hand ≠ 0)
    (hbound : opp.handValue target_hand + act.handValue hand ≤ 255) :
    (g.oppAfter pid hand target_hand).map (fun q => q.handValue target_hand) =
      some (if 5 ≤ opp.handValue target_hand + act.handValue hand then 0
            else opp.handValue target_hand + act.handValue hand) := by
  have hmm := make_move_applies g pid hand target_hand act opp hs ht hact hopp hhand
  have hmod : (opp.handValue target_hand + act.handValue hand) % 256 =
      opp.handValue target_hand + act.handValue hand :=
    Nat.mod_eq_of_lt (by omega)
  unfold Game.oppAfter
  rw [hmm]
  rcases hct : g.current_turn with _ | _
  · by_cases hw : (opp.hit target_hand (act.handValue hand)).left_hand = 0 ∧
        (opp.hit target_hand (act.handValue hand)).right_hand = 0
    · rw [if_pos hw]
      show some ((opp.hit target_hand (act.handValue hand)).handValue target_hand) = _
      rw [Player.hit_handValue, hmod]
    · rw [if_neg hw]
      show some ((opp.hit target_hand (act.handValue hand)).handValue target_hand) = _
      rw [Player.hit_handValue, hmod]
  · by_cases hw : (opp.hit target_hand (act.handValue hand)).left_hand = 0 ∧
        (opp.hit target_hand (act.handValue hand)).right_hand = 0
    · rw [if_pos hw]
      show some ((opp.hit target_hand (act.handValue hand)).handValue target_hand) = _
      rw [Player.hit_handValue, hmod]
    · rw [if_neg hw]
      show some ((opp.hit target_hand (act.handValue hand)).handValue target_hand) = _
      rw [Player.hit_handValue, hmod]

/-- Witness for C5 (amended) at the spec scenario: source slot 3 added to
target slot 2 reaches the threshold, so the resulting slot is 0. -/
theorem C5_threshold_witness :
    (gNearWin.oppAfter 1 0 0).map (fun q => q.handValue 0) =
      some (if 5 ≤
          Player.handValue { id := 2, game := some "sn", left_hand := 2, right_hand := 0 } 0 +
          Player.handValue { id := 1, game := none, left_hand := 3, right_hand := 1 } 0
        then 0
        else
          Player.handValue { id := 2, game := some "sn", left_hand := 2, right_hand := 0 } 0 +
          Player.handValue { id := 1, game := none, left_hand := 3, right_hand := 1 } 0) :=
  C5_threshold_wrap gNearWin 1 0 0
    { id := 1, game := none, left_hand := 3, right_hand := 1 }
    { id := 2, game := some "sn", left_hand := 2, right_hand := 0 }
    rfl rfl rfl rfl (by decide) (by decide)

theorem inprogress_ne_finished (w : Principal) :
    GameState.InProgress ≠ GameState.Finished w := by
  intro h
  exact GameState.noConfusion h

/-- C6: for a move applied to an in-progress game, the phase becomes
`Finished` exactly when the opponent's two slots are both 0 after the
slot update; in that case the recorded winner is the mover's identity and
`current_turn` is not alternated. -/
theorem C6_win_iff (g : Game) (pid : Principal) (hand target_hand : Nat)
    (act opp : Player)
    (hs : g.state = GameState.InProgress)
    (ht : g.turnValid pid = true)
    (hact : g.activePlayer = some act)
    (hopp : g.moveOpponent = some opp)
    (hhand : act.handValue hand ≠ 0) :
    ∃ opp2, g.oppAfter pid hand target_hand = some opp2 ∧
      ((g.make_move pid hand target_hand).state = GameState.Finished pid ↔
        (opp2.left_hand = 0 ∧ opp2.right_hand = 0)) ∧
      (∀ w, (g.make_move pid hand target_hand).state = GameState.Finished w →
        w = pid) ∧
      ((opp2.left_hand = 0 ∧ opp2.right_hand = 0) →
        (g.make_move pid hand target_hand).current_turn = g.current_turn) := by
  have hmm := make_move_applies g pid hand target_hand act opp hs ht hact hopp hhand
  unfold Game.oppAfter
  rw [hmm]
  rcases hct : g.current_turn with _ | _
  · by_cases hw : (opp.hit target_hand (act.handValue hand)).left_hand = 0 ∧
        (opp.hit target_hand (act.handValue hand)).right_hand = 0
    · rw [if_pos hw]
      refine ⟨opp.hit target_hand (act.handValue hand), rfl,
        ⟨fun _ => hw, fun _ => rfl⟩, ?_, fun _ => rfl⟩
      intro w hwin
      have h3 : GameState.Finished pid = GameState.Finished w := hwin
      injection h3 with h4
      exact h4.symm
    · rw [if_neg hw]
      refine ⟨opp.hit target_hand (act.handValue hand), rfl,
        ⟨fun hcon => ?_, fun hcon => absurd hcon hw⟩, ?_, fun hcon => absurd hcon hw⟩
      · have h3 : g.state = GameState.Finished pid := hcon
        rw [hs] at h3
        exact absurd h3 (inprogress_ne_finished pid)
      · intro w hwin
        have h3 : g.state = GameState.Finished w := hwin
        rw [hs] at h3
        exact absurd h3 (inprogress_ne_finished w)
  · by_cases hw : (opp.hit target_hand (act.handValue hand)).left_hand = 0 ∧
        (opp.hit target_hand (act.handValue hand)).right_hand = 0
    · rw [if_pos hw]
      refine ⟨opp.hit target_hand (act.handValue hand), rfl,
        ⟨fun _ => hw, fun _ => rfl⟩, ?_, fun _ => rfl⟩
      intro w hwin
      have h3 : GameState.Finished pid = GameState.Finished w := hwin
      injection h3 with h4
      exact h4.symm
    · rw [if_neg hw]
      refine ⟨opp.hit target_hand (act.handValue hand), rfl,
        ⟨fun hcon => ?_, fun hcon => absurd hcon hw⟩, ?_, fun hcon => absurd hcon hw⟩
      · have h3 : g.state = GameState.Finished pid := hcon
        rw [hs] at h3
        exact absurd h3 (inprogress_ne_finished pid)
      · intro w hwin
        have h3 : g.state = GameState.Finished w := hwin
        rw [hs] at h3
        exact absurd h3 (inprogress_ne_finished w)

/-- Witness for C6 at a concrete winning move: adding 3 to the opponent's
slot holding 2 empties it, the other slot is already 0, and the game
finishes with the mover as winner, turn unchanged. -/
theorem C6_witness :
    ∃ opp2, gNearWin.oppAfter 1 0 0 = some opp2 ∧
      ((gNearWin.make_move 1 0 0).state = GameState.Finished 1 ↔
        (opp2.left_hand = 0 ∧ opp2.right_hand = 0)) ∧
      (∀ w, (gNearWin.make_move 1 0 0).state = GameState.Finished w → w = 1) ∧
      ((opp2.left_hand = 0 ∧ opp2.right_hand = 0) →
        (gNearWin.make_move 1 0 0).current_turn = gNearWin.current_turn) :=
  C6_win_iff gNearWin 1 0 0
    { id := 1, game := none, left_hand := 3, right_hand := 1 }
    { id := 2, game := some "sn", left_hand := 2, right_hand := 0 }
    rfl rfl rfl rfl (by decide)

/-- C7: a legal move that does not finish the game (the updated opponent
slots are not both 0) flips `current_turn` to the opposite seat. -/
theorem C7_turn_alternation (g : Game) (pid : Principal) (hand target_hand : Nat)
    (act opp : Player)
    (hs : g.state = GameState.InProgress)
    (ht : g.turnValid pid = true)
    (hact : g.activePlayer = some act)
    (hopp : g.moveOpponent = some opp)
    (hhand : act.handValue hand ≠ 0)
    (hnw : ¬ ((opp.hit target_hand (act.handValue hand)).left_hand = 0 ∧
              (opp.hit target_hand (act.handValue hand)).right_hand = 0)) :
    (g.make_move pid hand target_hand).current_turn = Turn.other g.current_turn := by
  have hmm := make_move_applies g pid hand target_hand act opp hs ht hact hopp hhand
  rw [hmm, if_neg hnw]
  rcases hct : g.current_turn with _ | _ <;> rfl

/-- Witness for C7 at a concrete non-winning move: 1 added to the
opponent's slot holding 1 gives 2, no win, and the turn flips. -/
theorem C7_witness :
    (gInProg.make_move 1 0 0).current_turn = Turn.other gInProg.current_turn :=
  C7_turn_alternation gInProg 1 0 0
    { id := 1, game := none, left_hand := 1, right_hand := 1 }
    { id := 2, game := some "sp", left_hand := 1, right_hand := 1 }
    rfl rfl rfl rfl (by decide) (by decide)
